import Mathlib

/-
  Verification development for queuectl, a durable background-job queue.

  The persistent store (SQLite) is modelled as explicit state: a `Store`
  holds the `jobs` table, the `dead_letter_queue` table and the `config`
  table, each as a list of rows in storage (insertion) order.  ISO-8601
  timestamps compare lexicographically, which agrees with chronological
  order, so instants are modelled as `Nat` (seconds).  Fallible statements
  (NOT NULL / UNIQUE constraint violations, thrown exceptions) are
  modelled with `Except String`.

  Every definition below is translated from the repository source:
  `lib/job.js` (class Job), `lib/jobQueue.js` (class JobQueue) and
  `lib/database.js` (schema and constraints).
-/

set_option maxRecDepth 8000

namespace QueueCtl

/-- A row of the `jobs` table (schema in `database.js`): all sixteen
columns.  `state` and `command` are NOT NULL; nullable columns are
`Option`. -/
structure JobRow where
  id : String
  command : String
  state : String
  attempts : Nat
  max_retries : Nat
  priority : Int
  timeout_seconds : Nat
  run_at : Option Nat
  created_at : Nat
  updated_at : Nat
  started_at : Option Nat
  completed_at : Option Nat
  error_message : Option String
  next_retry_at : Option Nat
  output : Option String
  execution_time_ms : Option Nat
  deriving Repr, DecidableEq

/-- A row of the `dead_letter_queue` table: the reduced snapshot inserted
by `moveToDeadLetterQueue`. -/
structure DLQRow where
  id : String
  command : String
  attempts : Nat
  max_retries : Nat
  created_at : Nat
  failed_at : Nat
  error_message : Option String
  deriving Repr, DecidableEq

/-- The whole persistent database: `jobs`, `dead_letter_queue` and
`config`, each in storage order. -/
structure Store where
  jobs : List JobRow
  dlq : List DLQRow
  config : List (String × String)
  deriving Repr, DecidableEq

/-- The argument object accepted by `new Job(data)` / `JobQueue.enqueue`:
every field optional (absent = `none`). -/
structure JobData where
  id : Option String := none
  command : Option String := none
  state : Option String := none
  attempts : Option Nat := none
  max_retries : Option Nat := none
  priority : Option Int := none
  timeout_seconds : Option Nat := none
  run_at : Option Nat := none
  created_at : Option Nat := none
  updated_at : Option Nat := none
  next_retry_at : Option Nat := none
  deriving Repr, DecidableEq

/-- JavaScript `x || d` for a numeric field: `undefined`, `null` and `0`
are falsy, so `0` also falls back to the default. -/
def jsOrNat : Option Nat → Nat → Nat
  | none, d => d
  | some 0, d => d
  | some (n+1), _ => n+1

/-- JavaScript `x || d` for a string field: `undefined`, `null` and the
empty string are falsy. -/
def jsOrStr : Option String → String → String
  | none, d => d
  | some "", d => d
  | some s, _ => s

/-- JavaScript `x || null` for a nullable string column: an empty string
collapses to `null`. -/
def jsOrNullStr : Option String → Option String
  | some "" => none
  | x => x

/-- JavaScript `x || null` for a nullable numeric column: `0` collapses
to `null`. -/
def jsOrNullNat : Option Nat → Option Nat
  | some 0 => none
  | x => x

/-- The in-memory `Job` object as built by the `Job` constructor, keeping
the fields the queue operations read or persist.  `command` is
`data.command` with no default, hence still optional here. -/
structure JobObj where
  id : String
  command : Option String
  state : String
  attempts : Nat
  max_retries : Nat
  priority : Int
  timeout_seconds : Nat
  run_at : Option Nat
  created_at : Nat
  updated_at : Nat
  next_retry_at : Option Nat
  deriving Repr, DecidableEq

/-- The `Job` constructor (`lib/job.js` lines 4-21): each field is
`data.field || default`.  `now` stands for `new Date().toISOString()` and
`fresh` for `generateId()`. -/
def Job.fromData (d : JobData) (now : Nat) (fresh : String) : JobObj :=
  { id := jsOrStr d.id fresh
    command := d.command
    state := jsOrStr d.state "pending"
    attempts := jsOrNat d.attempts 0
    max_retries := jsOrNat d.max_retries 3
    priority := d.priority.getD 0
    timeout_seconds := jsOrNat d.timeout_seconds 300
    run_at := d.run_at
    created_at := d.created_at.getD now
    updated_at := d.updated_at.getD now
    next_retry_at := d.next_retry_at }

/-- Reload normalization: `getJob` runs the fetched row back through the
`Job` constructor, so the JavaScript `||` defaults are re-applied to the
raw column values. -/
def normalizeRow (r : JobRow) : JobRow :=
  { r with
    state := jsOrStr (some r.state) "pending"
    max_retries := jsOrNat (some r.max_retries) 3
    timeout_seconds := jsOrNat (some r.timeout_seconds) 300
    error_message := jsOrNullStr r.error_message
    output := jsOrNullStr r.output
    execution_time_ms := jsOrNullNat r.execution_time_ms }

/-- `Job.canRetry` (`lib/job.js` line 52): `attempts < max_retries`. -/
def canRetry (j : JobRow) : Prop := j.attempts < j.max_retries

instance (j : JobRow) : Decidable (canRetry j) := by
  unfold canRetry; infer_instance

/-- `Job.getRetryDelay` (`lib/job.js` line 56):
`Math.pow(backoffBase, attempts)` seconds. -/
def getRetryDelay (attempts backoffBase : Nat) : Nat := backoffBase ^ attempts

/-- `JobQueue.getConfig`: `SELECT value FROM config WHERE key = ?`,
`null` when the key is absent. -/
def getConfig (st : Store) (key : String) : Option String :=
  (st.config.find? (fun kv => kv.1 == key)).map (fun kv => kv.2)

/-- Value of digit characters read left to right. -/
def digitsVal (l : List Char) : Nat :=
  l.foldl (fun n c => n * 10 + (c.toNat - 48)) 0

/-- JavaScript `parseInt` restricted to the non-negative case: skip
leading whitespace, read leading decimal digits; `none` models `NaN`. -/
def parseIntNat (s : String) : Option Nat :=
  let t := (s.data.dropWhile Char.isWhitespace).takeWhile Char.isDigit
  if t.isEmpty then none else some (digitsVal t)

/-- The backoff base used by `failJob`:
`parseInt(await this.getConfig('backoff_base') || '2')`.  `none` models a
`NaN` result (which would make `scheduleRetry` throw). -/
def parsedBackoff (st : Store) : Option Nat :=
  parseIntNat (jsOrStr (getConfig st "backoff_base") "2")

/-- `JobQueue.enqueue` (`lib/jobQueue.js`): build the `Job`, then INSERT
eleven columns into `jobs`.  The INSERT fails on a NULL `command`
(NOT NULL constraint) or a duplicate `id` (PRIMARY KEY); on failure the
store is untouched. -/
def enqueue (st : Store) (d : JobData) (now : Nat) (fresh : String) :
    Except String (Store × JobRow) :=
  let j := Job.fromData d now fresh
  match j.command with
  | none => .error "SQLITE_CONSTRAINT: NOT NULL constraint failed: jobs.command"
  | some c =>
    if st.jobs.any (fun r => r.id == j.id) then
      .error "SQLITE_CONSTRAINT: UNIQUE constraint failed: jobs.id"
    else
      let row : JobRow :=
        { id := j.id, command := c, state := j.state, attempts := j.attempts,
          max_retries := j.max_retries, priority := j.priority,
          timeout_seconds := j.timeout_seconds, run_at := j.run_at,
          created_at := j.created_at, updated_at := j.updated_at,
          started_at := none, completed_at := none, error_message := none,
          next_retry_at := j.next_retry_at, output := none,
          execution_time_ms := none }
      .ok ({ st with jobs := st.jobs ++ [row] }, row)

/-- The WHERE clause of the dequeue SELECT: `state = 'pending' AND
(next_retry_at IS NULL OR next_retry_at <= now) AND (run_at IS NULL OR
run_at <= now)`. -/
def eligible (now : Nat) (j : JobRow) : Bool :=
  j.state == "pending" &&
    (match j.next_retry_at with | none => true | some t => decide (t ≤ now)) &&
    (match j.run_at with | none => true | some t => decide (t ≤ now))

/-- Strict comparison for `ORDER BY priority DESC, created_at ASC`:
`better a b` holds when `a` sorts strictly before `b`. -/
def better (a b : JobRow) : Bool :=
  decide (b.priority < a.priority) ||
    (decide (a.priority = b.priority) && decide (a.created_at < b.created_at))

/-- The dequeue SELECT with `LIMIT 1`: first row of the table scan that no
later row strictly beats, i.e. the minimum of the ORDER BY with ties
broken by storage order. -/
def selectFrom (now : Nat) : List JobRow → Option JobRow
  | [] => none
  | j :: rest =>
    let r := selectFrom now rest
    if eligible now j then
      match r with
      | none => some j
      | some b => if better b j then some b else some j
    else r

/-- The SELECT of `JobQueue.dequeue` over the whole `jobs` table. -/
def selectJob (st : Store) (now : Nat) : Option JobRow :=
  selectFrom now st.jobs

/-- The row produced by the guarded claim UPDATE on a pending row. -/
def claimedRow (j : JobRow) (now : Nat) : JobRow :=
  { j with state := "processing", started_at := some now, updated_at := now }

/-- The guarded UPDATE of `dequeue`: `SET state='processing',
started_at=?, updated_at=? WHERE id = ? AND state = 'pending'`. -/
def claimUpdate (st : Store) (id : String) (now : Nat) : Store :=
  { st with jobs := st.jobs.map (fun r =>
      if r.id == id && r.state == "pending" then claimedRow r now else r) }

/-- Number of rows the guarded claim UPDATE would change (`this.changes`
of the statement). -/
def claimChanges (st : Store) (id : String) : Nat :=
  (st.jobs.filter (fun r => r.id == id && r.state == "pending")).length

/-- `SELECT * FROM jobs WHERE id = ?`. -/
def findRow (st : Store) (id : String) : Option JobRow :=
  st.jobs.find? (fun r => r.id == id)

/-- `JobQueue.dequeue` with an explicit interference point: the SELECT
reads store `st0`; by the time the guarded UPDATE and the verification
SELECT run, a concurrent worker may have moved the store to `st1`.  The
sequential execution is `st1 = st0`.  After the UPDATE the row is
re-read and returned whenever its state reads `processing`. -/
def dequeueInterleaved (st0 st1 : Store) (now : Nat) : Store × Option JobRow :=
  match selectJob st0 now with
  | none => (st1, none)
  | some j =>
    let st' := claimUpdate st1 j.id now
    match findRow st' j.id with
    | some r => if r.state == "processing" then (st', some r) else (st', none)
    | none => (st', none)

/-- `JobQueue.dequeue` run without interference from other workers. -/
def dequeue (st : Store) (now : Nat) : Store × Option JobRow :=
  dequeueInterleaved st st now

/-- `JobQueue.completeJob`: UPDATE the row with the given id, setting
`output` / `execution_time_ms` only when the arguments are non-null, and
unconditionally `state='completed'`, `completed_at`, `updated_at`.  No
other column is touched. -/
def completeJob (st : Store) (id : String) (output : Option String)
    (executionTimeMs : Option Nat) (now : Nat) : Store :=
  { st with jobs := st.jobs.map (fun r =>
      if r.id == id then
        { r with
          output := match output with | some o => some o | none => r.output
          execution_time_ms :=
            match executionTimeMs with | some m => some m | none => r.execution_time_ms
          state := "completed", completed_at := some now, updated_at := now }
      else r) }

/-- First half of `JobQueue.moveToDeadLetterQueue`: the INSERT into
`dead_letter_queue` (its own auto-committed statement; fails on a
duplicate DLQ id).  `j` is the in-memory job after `markAsFailed`, so its
`attempts` is already incremented and `error_message` set. -/
def dlqInsert (st : Store) (j : JobRow) (now : Nat) : Except String Store :=
  if st.dlq.any (fun r => r.id == j.id) then
    .error "SQLITE_CONSTRAINT: UNIQUE constraint failed: dead_letter_queue.id"
  else
    .ok { st with dlq := st.dlq ++
      [{ id := j.id, command := j.command, attempts := j.attempts,
         max_retries := j.max_retries, created_at := j.created_at,
         failed_at := now, error_message := j.error_message }] }

/-- Second half of `JobQueue.moveToDeadLetterQueue`: `DELETE FROM jobs
WHERE id = ?`, again its own statement. -/
def jobsDelete (st : Store) (id : String) : Store :=
  { st with jobs := st.jobs.filter (fun r => !(r.id == id)) }

/-- `JobQueue.moveToDeadLetterQueue`: the INSERT followed by the DELETE,
with no enclosing transaction. -/
def moveToDeadLetterQueue (st : Store) (j : JobRow) (now : Nat) :
    Except String Store :=
  match dlqInsert st j now with
  | .error e => .error e
  | .ok st1 => .ok (jobsDelete st1 j.id)

/-- `JobQueue.failJob`: load the job (re-normalized by the `Job`
constructor); silently return when absent.  `markAsFailed` increments
`attempts` and records the message; then `canRetry()` chooses the retry
UPDATE (state back to `pending`, `next_retry_at = now + base^attempts`)
or the move to the dead-letter queue.  A non-numeric backoff value makes
`scheduleRetry` throw (`Invalid Date`), before anything is persisted. -/
def failJob (st : Store) (id : String) (errorMessage : String) (now : Nat) :
    Except String Store :=
  match findRow st id with
  | none => .ok st
  | some raw =>
    let j0 := normalizeRow raw
    let j1 := { j0 with attempts := j0.attempts + 1,
                        error_message := some errorMessage, updated_at := now }
    if canRetry j1 then
      match parsedBackoff st with
      | none => .error "RangeError: Invalid time value"
      | some base =>
        let delay := getRetryDelay j1.attempts base
        .ok { st with jobs := st.jobs.map (fun r =>
          if r.id == id then
            { r with
                state := "pending", attempts := j1.attempts,
                error_message := some errorMessage, updated_at := now,
                next_retry_at := some (now + delay) }
          else r) }
    else
      moveToDeadLetterQueue st j1 now

/-- First half of `JobQueue.retryDeadJob` after the DLQ lookup: the
`enqueue` of the fresh pending job (attempts 0, id / command /
max_retries preserved), an auto-committed INSERT of its own. -/
def retryDeadStep1 (st : Store) (d : DLQRow) (now : Nat) :
    Except String (Store × JobRow) :=
  enqueue st
    { id := some d.id, command := some d.command, state := some "pending",
      attempts := some 0, max_retries := some d.max_retries,
      created_at := some now, updated_at := some now }
    now d.id

/-- `JobQueue.retryDeadJob`: look the id up in `dead_letter_queue`
(throwing when absent), re-enqueue it as a fresh pending job, then DELETE
the DLQ row — two separate statements, no transaction. -/
def retryDeadJob (st : Store) (id : String) (now : Nat) :
    Except String (Store × JobRow) :=
  match st.dlq.find? (fun r => r.id == id) with
  | none => .error ("Job " ++ id ++ " not found in dead letter queue")
  | some d =>
    match retryDeadStep1 st d now with
    | .error e => .error e
    | .ok (st1, row) =>
      .ok ({ st1 with dlq := st1.dlq.filter (fun r => !(r.id == id)) }, row)

/-- The record returned by `JobQueue.getJobStats`. -/
structure JobStats where
  pending : Nat
  processing : Nat
  completed : Nat
  failed : Nat
  dead : Nat
  deriving Repr, DecidableEq

/-- Rows of the `jobs` table currently in a given state (the GROUP BY
count for that state). -/
def countState (st : Store) (s : String) : Nat :=
  (st.jobs.filter (fun j => j.state == s)).length

/-- `JobQueue.getJobStats`: per-state row counts, zero for states with no
rows. -/
def getJobStats (st : Store) : JobStats :=
  { pending := countState st "pending", processing := countState st "processing",
    completed := countState st "completed", failed := countState st "failed",
    dead := countState st "dead" }

/-- The store right after `Database.initialize`: empty tables and the
default configuration rows. -/
def Store.init : Store :=
  { jobs := [], dlq := [],
    config := [("max_retries", "3"), ("backoff_base", "2"), ("worker_timeout", "300")] }

/-- PRIMARY KEY invariant of the `jobs` table: distinct rows have
distinct ids. -/
def uniqueIds (st : Store) : Prop :=
  st.jobs.Pairwise (fun a b => a.id ≠ b.id)

/-- One call of the public queue API (§4.3 of the spec): enqueue, claim,
complete, fail, retry_dead. -/
inductive Op where
  | enq (d : JobData) (now : Nat) (fresh : String)
  | claim (now : Nat)
  | complete (id : String) (output : Option String) (ms : Option Nat) (now : Nat)
  | fail (id : String) (msg : String) (now : Nat)
  | retryDead (id : String) (now : Nat)
  deriving Repr

/-- Effect of one queue operation on the store.  A thrown error leaves
the store as it was (every error above occurs before any write). -/
def applyOp (st : Store) : Op → Store
  | .enq d now fresh =>
    match enqueue st d now fresh with
    | .ok (st', _) => st'
    | .error _ => st
  | .claim now => (dequeue st now).1
  | .complete id output ms now => completeJob st id output ms now
  | .fail id msg now =>
    match failJob st id msg now with
    | .ok st' => st'
    | .error _ => st
  | .retryDead id now =>
    match retryDeadJob st id now with
    | .ok (st', _) => st'
    | .error _ => st

/-- Store reached by a sequence of queue operations from a freshly
initialized database. -/
def runOps (ops : List Op) : Store :=
  ops.foldl applyOp Store.init

/-- The documented `enqueue` interface (spec §4.3) passes command,
priority, timeout_seconds, run_at, max_retries, id — never `state` or
`attempts`. -/
def docOp : Op → Bool
  | .enq d _ _ => d.state == none && d.attempts == none
  | _ => true

/-- States a `jobs` row can actually rest in: `failed` and `dead` are
never persisted to the main table. -/
def stateOk (j : JobRow) : Prop :=
  j.state = "pending" ∨ j.state = "processing" ∨ j.state = "completed"

/-- Invariant maintained by the queue operations on stores reachable
through the documented interface: unique ids, resting states only, and
`attempts < max_retries` with a positive `max_retries`. -/
def Inv (st : Store) : Prop :=
  uniqueIds st ∧
    ∀ j ∈ st.jobs, stateOk j ∧ 0 < j.max_retries ∧ j.attempts < j.max_retries

/-- A freshly enqueued pending row used by the concrete scenarios. -/
def mkRow0 (id : String) (p : Int) (c : Nat) (mr : Nat) : JobRow :=
  { id := id, command := "exit 1", state := "pending", attempts := 0,
    max_retries := mr, priority := p, timeout_seconds := 300, run_at := none,
    created_at := c, updated_at := c, started_at := none, completed_at := none,
    error_message := none, next_retry_at := none, output := none,
    execution_time_ms := none }

/-- Store for the claim-race scenario: one pending job `j1`. -/
def C1store : Store :=
  { jobs := [mkRow0 "j1" 0 1 3], dlq := [], config := Store.init.config }

/-- The store after worker A has completed its `dequeue` of `j1`. -/
def C1storeA : Store := (dequeue C1store 5).1

/-- Store for the DLQ-promotion scenario: one pending job enqueued with
`max_retries = 1`, no failures yet. -/
def C2store : Store :=
  { jobs := [mkRow0 "j1" 0 1 1], dlq := [], config := Store.init.config }

/-- The store after one `failJob` on `C2store`: the job has been moved to
the dead-letter queue with `attempts = 1`. -/
def C2after : Store :=
  { jobs := [],
    dlq := [⟨"j1", "exit 1", 1, 1, 1, 10, some "boom"⟩],
    config := Store.init.config }

/-- Store for the completion scenario: one processing job that carries a
failure message and a retry timestamp from an earlier failed attempt. -/
def C3store : Store :=
  { jobs := [{ mkRow0 "j1" 0 1 3 with
      state := "processing", attempts := 1,
      error_message := some "old", next_retry_at := some 5 }],
    dlq := [], config := Store.init.config }

/-- Store for the exhaustion-atomicity scenario: one pending job with
`max_retries = 1`. -/
def C4store : Store :=
  { jobs := [mkRow0 "j1" 0 1 1], dlq := [], config := Store.init.config }

/-- The in-memory job inside `failJob C4store "j1" "boom" 10` at the
moment `moveToDeadLetterQueue` is called: reloaded, normalized and run
through `markAsFailed`. -/
def C4job : JobRow :=
  { mkRow0 "j1" 0 1 1 with
    attempts := 1, error_message := some "boom", updated_at := 10 }

/-- The observable store between the two statements of the exhaustion
path on `C4store`: the DLQ snapshot inserted, the `jobs` row not yet
deleted. -/
def C4mid : Store :=
  { jobs := [mkRow0 "j1" 0 1 1],
    dlq := [⟨"j1", "exit 1", 1, 1, 1, 10, some "boom"⟩],
    config := Store.init.config }

/-- Witness store for the selection-rule theorem: two eligible pending
jobs with distinct priorities. -/
def C5wstore : Store :=
  { jobs := [mkRow0 "a" 0 1 3, mkRow0 "b" 5 2 3], dlq := [],
    config := Store.init.config }

/-- Witness store for the backoff theorem: one fresh pending job and the
default configuration (no explicit `backoff_base` row). -/
def C6wstore : Store :=
  { jobs := [mkRow0 "j1" 0 1 3], dlq := [], config := [] }

/-- The row persisted by an `enqueue` whose command is the empty
string. -/
def C7row : JobRow :=
  { id := "fresh1", command := "", state := "pending", attempts := 0,
    max_retries := 3, priority := 0, timeout_seconds := 300, run_at := none,
    created_at := 3, updated_at := 3, started_at := none,
    completed_at := none, error_message := none, next_retry_at := none,
    output := none, execution_time_ms := none }

/-- The DLQ entry of the DLQ-retry scenario. -/
def C8dlq : DLQRow := ⟨"j9", "exit 1", 2, 1, 1, 2, some "boom"⟩

/-- Store for the DLQ-retry scenario: empty main table, one DLQ entry. -/
def C8store : Store :=
  { jobs := [],
    dlq := [C8dlq],
    config := Store.init.config }

/-- The main-table row `retryDeadJob` re-creates from the `C8store` DLQ
entry. -/
def C8row : JobRow :=
  { id := "j9", command := "exit 1", state := "pending", attempts := 0,
    max_retries := 1, priority := 0, timeout_seconds := 300, run_at := none,
    created_at := 30, updated_at := 30, started_at := none,
    completed_at := none, error_message := none, next_retry_at := none,
    output := none, execution_time_ms := none }

/-- The observable store between the two statements of
`retryDeadJob C8store "j9" 30`: the fresh job inserted, the DLQ row not
yet deleted. -/
def C8mid : Store :=
  { jobs := [C8row], dlq := C8store.dlq, config := Store.init.config }

/-- Witness operation sequence for the no-failed-rows invariant: an
enqueue through the documented interface, a claim, and a failure. -/
def C10ops : List Op :=
  [.enq { command := some "exit 1" } 1 "w1", .claim 2, .fail "w1" "boom" 3]

/-- The row `enqueue` inserts for data `d` carrying command `c`: the
`Job` constructor defaults plus the INSERT's implicit NULL columns. -/
def enqRowOf (d : JobData) (now : Nat) (fresh : String) (c : String) : JobRow :=
  { id := jsOrStr d.id fresh, command := c, state := jsOrStr d.state "pending",
    attempts := jsOrNat d.attempts 0, max_retries := jsOrNat d.max_retries 3,
    priority := d.priority.getD 0,
    timeout_seconds := jsOrNat d.timeout_seconds 300, run_at := d.run_at,
    created_at := d.created_at.getD now, updated_at := d.updated_at.getD now,
    started_at := none, completed_at := none, error_message := none,
    next_retry_at := d.next_retry_at, output := none,
    execution_time_ms := none }

/-- The single job row of `C3store`. -/
def C3job : JobRow :=
  { mkRow0 "j1" 0 1 3 with
    state := "processing", attempts := 1,
    error_message := some "old", next_retry_at := some 5 }

/-- The fresh main-table row `retryDeadJob` re-creates from DLQ entry
`d`: pending, attempts reset to 0, id and command preserved, other
columns at their constructor defaults. -/
def retryRowOf (d : DLQRow) (now : Nat) : JobRow :=
  { id := d.id, command := d.command, state := "pending", attempts := 0,
    max_retries := jsOrNat (some d.max_retries) 3, priority := 0,
    timeout_seconds := 300, run_at := none, created_at := now,
    updated_at := now, started_at := none, completed_at := none,
    error_message := none, next_retry_at := none, output := none,
    execution_time_ms := none }

/-- Unfolding of the dequeue WHERE clause into its three conjuncts. -/
lemma eligible_iff (now : Nat) (j : JobRow) :
    eligible now j = true ↔
      j.state = "pending" ∧ (∀ t, j.next_retry_at = some t → t ≤ now) ∧
        (∀ t, j.run_at = some t → t ≤ now) := by
  unfold eligible
  cases j.next_retry_at <;> cases j.run_at <;>
    simp [Bool.and_eq_true, decide_eq_true_eq, beq_iff_eq, and_assoc]

/-- A row never sorts strictly before itself. -/
lemma better_irrefl (a : JobRow) : better a a = false := by
  simp [better]

/-- The ORDER BY comparison is asymmetric. -/
lemma better_asymm {a b : JobRow} (h : better a b = true) :
    better b a = false := by
  simp only [better, Bool.or_eq_true, Bool.and_eq_true, decide_eq_true_eq,
    Bool.or_eq_false_iff, Bool.and_eq_false_iff, decide_eq_false_iff_not] at *
  omega

/-- Negative transitivity of the ORDER BY comparison: if `k` does not
beat `b` and `b` does not beat `a`, then `k` does not beat `a`. -/
lemma better_neg_trans {k b a : JobRow} (h1 : better k b = false)
    (h2 : better b a = false) : better k a = false := by
  simp only [better, Bool.or_eq_false_iff, Bool.and_eq_false_iff,
    decide_eq_false_iff_not, decide_eq_true_eq] at *
  omega

/-- The dequeue SELECT returns nothing exactly when no row satisfies the
WHERE clause. -/
lemma selectFrom_eq_none (now : Nat) (l : List JobRow) :
    selectFrom now l = none ↔ ∀ j ∈ l, eligible now j = false := by
  induction l with
  | nil => simp [selectFrom]
  | cons a rest ih =>
    simp only [selectFrom]
    cases ha : eligible now a with
    | false =>
      rw [if_neg (by simp [ha])]
      constructor
      · intro h j hj
        rcases List.mem_cons.mp hj with rfl | hj
        · exact ha
        · exact (ih.mp h) j hj
      · intro h
        exact ih.mpr (fun j hj => h j (List.mem_cons_of_mem _ hj))
    | true =>
      rw [if_pos (by simp [ha])]
      cases hr : selectFrom now rest with
      | none =>
        constructor
        · intro h; simp at h
        · intro h
          have hfa := h a (List.mem_cons_self a rest)
          simp [hfa] at ha
      | some b =>
        constructor
        · intro h
          cases hb : better b a <;> simp [hb] at h
        · intro h
          have hfa := h a (List.mem_cons_self a rest)
          simp [hfa] at ha

/-- The dequeue SELECT returns a row of the table that satisfies the
WHERE clause and that no other satisfying row sorts strictly before. -/
lemma selectFrom_eq_some (now : Nat) (l : List JobRow) (j : JobRow)
    (h : selectFrom now l = some j) :
    j ∈ l ∧ eligible now j = true ∧
      ∀ k ∈ l, eligible now k = true → better k j = false := by
  induction l generalizing j with
  | nil => simp [selectFrom] at h
  | cons a rest ih =>
    simp only [selectFrom] at h
    cases ha : eligible now a with
    | false =>
      rw [ha, if_neg (by simp)] at h
      obtain ⟨hmem, helig, hbest⟩ := ih j h
      refine ⟨List.mem_cons_of_mem _ hmem, helig, ?_⟩
      intro k hk hke
      rcases List.mem_cons.mp hk with rfl | hk
      · exact absurd hke (by simp [ha])
      · exact hbest k hk hke
    | true =>
      rw [ha, if_pos (by simp)] at h
      cases hr : selectFrom now rest with
      | none =>
        rw [hr] at h
        have hj : j = a := by simpa using h.symm
        subst hj
        refine ⟨List.mem_cons_self _ _, ha, ?_⟩
        intro k hk hke
        rcases List.mem_cons.mp hk with rfl | hk
        · exact better_irrefl _
        · exact absurd hke (by simp [(selectFrom_eq_none now rest).mp hr k hk])
      | some b =>
        rw [hr] at h
        have h' : (if better b a = true then some b else some a) = some j := h
        obtain ⟨hbmem, hbelig, hbbest⟩ := ih b hr
        cases hba : better b a with
        | true =>
          rw [hba] at h'
          have hj : j = b := by simpa using h'.symm
          subst hj
          refine ⟨List.mem_cons_of_mem _ hbmem, hbelig, ?_⟩
          intro k hk hke
          rcases List.mem_cons.mp hk with rfl | hk
          · exact better_asymm hba
          · exact hbbest k hk hke
        | false =>
          rw [hba] at h'
          have hj : j = a := by simpa using h'.symm
          subst hj
          refine ⟨List.mem_cons_self _ _, ha, ?_⟩
          intro k hk hke
          rcases List.mem_cons.mp hk with rfl | hk
          · exact better_irrefl _
          · exact better_neg_trans (hbbest k hk hke) hba

/-- The `max_retries` default is never zero: `data.max_retries || 3` is
positive. -/
lemma jsOrNat_pos (x : Option Nat) {d : Nat} (hd : 0 < d) :
    0 < jsOrNat x d := by
  cases x with
  | none => simpa [jsOrNat]
  | some n => cases n <;> simp [jsOrNat, hd]

/-- On a positive stored value the JavaScript `||` default is the
identity. -/
lemma jsOrNat_of_pos {n : Nat} (d : Nat) (h : 0 < n) :
    jsOrNat (some n) d = n := by
  cases n with
  | zero => omega
  | succ m => simp [jsOrNat]

/-- With unique ids, any table row bearing the looked-up id is the row
the lookup returned. -/
lemma find_unique_mem {l : List JobRow} {id : String} {raw r : JobRow}
    (hU : l.Pairwise (fun a b => a.id ≠ b.id))
    (hfind : l.find? (fun x => x.id == id) = some raw)
    (hr : r ∈ l) (hid : r.id = id) : r = raw := by
  induction l with
  | nil => simp at hr
  | cons a rest ih =>
    rw [List.pairwise_cons] at hU
    rw [List.find?_cons] at hfind
    cases hp : (a.id == id) with
    | true =>
      rw [hp] at hfind
      simp only [Option.some.injEq] at hfind
      subst hfind
      rcases List.mem_cons.mp hr with rfl | hmem
      · rfl
      · exact absurd hid (by simpa [beq_iff_eq] using (hU.1 r hmem ∘ Eq.symm) ∘
          (fun hri => (beq_iff_eq.mp hp).symm ▸ hri))
    | false =>
      rw [hp] at hfind
      rcases List.mem_cons.mp hr with rfl | hmem
      · exact absurd hid (by simpa [beq_iff_eq] using hp)
      · exact ih hU.2 hfind hmem

/-- UPDATE-then-re-read: with unique ids, a guarded per-id UPDATE
followed by a SELECT of that id returns the updated row.  `g` is the
guard of the UPDATE (which only fires on rows bearing the id) and `f`
its SET clause (which never changes the id). -/
lemma find_map_update {l : List JobRow} {id : String} {raw : JobRow}
    (g : JobRow → Bool) (f : JobRow → JobRow)
    (hU : l.Pairwise (fun a b => a.id ≠ b.id))
    (hfind : l.find? (fun x => x.id == id) = some raw)
    (hg_id : ∀ r, g r = true → r.id = id)
    (hf_id : (f raw).id = raw.id)
    (hg_raw : g raw = true) :
    (l.map (fun r => if g r then f r else r)).find? (fun x => x.id == id) =
      some (f raw) := by
  induction l with
  | nil => simp at hfind
  | cons a rest ih =>
    rw [List.pairwise_cons] at hU
    rw [List.find?_cons] at hfind
    cases hp : (a.id == id) with
    | true =>
      rw [hp] at hfind
      simp only [Option.some.injEq] at hfind
      subst hfind
      have hrow : (if g a = true then f a else a) = f a := if_pos hg_raw
      rw [List.map_cons, hrow]
      exact List.find?_cons_of_pos _ (show ((f a).id == id) = true by
        rw [hf_id]; exact hp)
    | false =>
      rw [hp] at hfind
      cases hga : g a with
      | true => exact absurd (hg_id a hga) (by simpa [beq_iff_eq] using hp)
      | false =>
        have hrow : (if g a = true then f a else a) = a := if_neg (by simp [hga])
        rw [List.map_cons, hrow]
        have hstep := @List.find?_cons_of_neg _ (fun x => x.id == id) a
          (List.map (fun r => if g r = true then f r else r) rest) (by simp [hp])
        rw [hstep]
        exact ih hU.2 hfind

/-- Rows that do not bear the updated id pass through a per-id UPDATE
untouched. -/
lemma mem_map_update_of_ne {l : List JobRow} {id : String}
    (g : JobRow → Bool) (f : JobRow → JobRow)
    (hg_id : ∀ r, g r = true → r.id = id)
    {r : JobRow} (hr : r ∈ l) (hne : r.id ≠ id) :
    r ∈ l.map (fun x => if g x then f x else x) := by
  have : (if g r then f r else r) = r := by
    cases hgr : g r with
    | true => exact absurd (hg_id r hgr) hne
    | false => simp
  exact this ▸ List.mem_map_of_mem _ hr

/-- With unique ids, looking a member row up by its own id finds it. -/
lemma findRow_of_mem {st : Store} {j : JobRow} (hU : uniqueIds st)
    (hj : j ∈ st.jobs) : findRow st j.id = some j := by
  have hsome : (st.jobs.find? (fun x => x.id == j.id)).isSome := by
    rw [List.find?_isSome]
    exact ⟨j, hj, by simp⟩
  obtain ⟨raw, hraw⟩ := Option.isSome_iff_exists.mp hsome
  have : j = raw := find_unique_mem hU hraw hj rfl
  subst this
  exact hraw

/-- A `dequeue` that selects nothing changes nothing and returns null. -/
lemma dequeue_none {st : Store} {now : Nat}
    (h : selectJob st now = none) : dequeue st now = (st, none) := by
  unfold dequeue dequeueInterleaved
  rw [h]

/-- A sequential `dequeue` that selects row `j` applies the guarded
UPDATE to it, re-reads it as `processing`, and returns it. -/
lemma dequeue_some {st : Store} {now : Nat} {j : JobRow} (hU : uniqueIds st)
    (h : selectJob st now = some j) :
    dequeue st now = (claimUpdate st j.id now, some (claimedRow j now)) := by
  obtain ⟨hmem, helig, -⟩ := selectFrom_eq_some now st.jobs j h
  have hpend : j.state = "pending" := ((eligible_iff now j).mp helig).1
  have hfind :
      findRow (claimUpdate st j.id now) j.id = some (claimedRow j now) := by
    unfold claimUpdate findRow
    exact find_map_update (fun r => r.id == j.id && r.state == "pending")
      (fun r => claimedRow r now) hU (findRow_of_mem hU hmem)
      (fun r hr => by
        simp only [Bool.and_eq_true, beq_iff_eq] at hr
        exact hr.1)
      rfl (by simp [hpend])
  unfold dequeue dequeueInterleaved
  rw [h]
  simp only [hfind]
  rfl

/-- Successful `enqueue` appends exactly one row, built from the input
data by the `Job` constructor defaults, and leaves the other tables
alone. -/
lemma enqueue_ok {st : Store} {d : JobData} {now : Nat} {fresh : String}
    {st' : Store} {row : JobRow}
    (h : enqueue st d now fresh = .ok (st', row)) :
    st' = { st with jobs := st.jobs ++ [row] } ∧
      d.command = some row.command ∧
      row.id = jsOrStr d.id fresh ∧
      row.state = jsOrStr d.state "pending" ∧
      row.attempts = jsOrNat d.attempts 0 ∧
      row.max_retries = jsOrNat d.max_retries 3 ∧
      st.jobs.any (fun r => r.id == row.id) = false := by
  cases hc : d.command with
  | none =>
    simp only [enqueue, Job.fromData, hc] at h
    exact absurd h (by simp)
  | some c =>
    cases hdup : st.jobs.any (fun r => r.id == jsOrStr d.id fresh) with
    | true =>
      simp only [enqueue, Job.fromData, hc, hdup] at h
      exact absurd h (by simp)
    | false =>
      simp only [enqueue, Job.fromData, hc, hdup, Bool.false_eq_true,
        if_false, Except.ok.injEq, Prod.mk.injEq] at h
      obtain ⟨h1, h2⟩ := h
      subst h2
      subst h1
      refine ⟨rfl, rfl, rfl, rfl, rfl, rfl, hdup⟩

/-- An `enqueue` whose data carries no command fails the NOT NULL
constraint. -/
lemma enqueue_no_command {st : Store} {d : JobData} {now : Nat}
    {fresh : String} (hc : d.command = none) :
    enqueue st d now fresh =
      .error "SQLITE_CONSTRAINT: NOT NULL constraint failed: jobs.command" := by
  simp only [enqueue, Job.fromData, hc]

/-- An `enqueue` with a present command and a non-colliding id succeeds
and appends the constructed row. -/
lemma enqueue_eq_ok {st : Store} {d : JobData} {now : Nat} {fresh : String}
    {c : String} (hc : d.command = some c)
    (hdup : st.jobs.any (fun r => r.id == jsOrStr d.id fresh) = false) :
    enqueue st d now fresh =
      .ok ({ st with jobs := st.jobs ++ [enqRowOf d now fresh c] },
        enqRowOf d now fresh c) := by
  simp only [enqueue, Job.fromData, hc, hdup, Bool.false_eq_true, if_false]
  rfl

/-- Re-reading an id after `completeJob`: the row is `completed` with
recorded metrics, and `error_message` / `next_retry_at` keep their old
values. -/
lemma completeJob_spec {st : Store} {id : String} {out : Option String}
    {ms : Option Nat} {now : Nat} {raw : JobRow}
    (hU : uniqueIds st) (hfind : findRow st id = some raw) :
    findRow (completeJob st id out ms now) id = some
      { raw with
        output := match out with | some o => some o | none => raw.output,
        execution_time_ms :=
          match ms with | some m => some m | none => raw.execution_time_ms,
        state := "completed", completed_at := some now, updated_at := now } := by
  have hfind' : List.find? (fun x => x.id == id) st.jobs = some raw := hfind
  have hraw0 := List.find?_some hfind'
  have hraw : (raw.id == id) = true := hraw0
  unfold completeJob findRow
  exact find_map_update (fun r => r.id == id)
    (fun r =>
      { r with
        output := match out with | some o => some o | none => r.output,
        execution_time_ms :=
          match ms with | some m => some m | none => r.execution_time_ms,
        state := "completed", completed_at := some now, updated_at := now })
    hU hfind (fun r hr => beq_iff_eq.mp hr) rfl hraw

/-- Rows bearing other ids pass through `completeJob` unchanged. -/
lemma completeJob_other_rows {st : Store} {id : String} {out : Option String}
    {ms : Option Nat} {now : Nat} {r : JobRow}
    (hr : r ∈ st.jobs) (hne : r.id ≠ id) :
    r ∈ (completeJob st id out ms now).jobs := by
  unfold completeJob
  exact mem_map_update_of_ne (fun x => x.id == id) _
    (fun x hx => beq_iff_eq.mp hx) hr hne

/-- `failJob` on an id with no row is a silent no-op. -/
lemma failJob_no_row {st : Store} {id msg : String} {now : Nat}
    (h : findRow st id = none) : failJob st id msg now = .ok st := by
  unfold failJob
  rw [h]

/-- The retry path of `failJob`: with retries left, the row is set back
to `pending` with the incremented attempt count, the error message, and
`next_retry_at = now + base ^ attempts`. -/
lemma failJob_retry_spec {st : Store} {id msg : String} {now : Nat}
    {raw : JobRow} {b : Nat}
    (hfind : findRow st id = some raw) (hmr : 0 < raw.max_retries)
    (hretry : raw.attempts + 1 < raw.max_retries)
    (hb : parsedBackoff st = some b) :
    failJob st id msg now = .ok { st with jobs := st.jobs.map (fun r =>
      if r.id == id then
        { r with
          state := "pending", attempts := raw.attempts + 1,
          error_message := some msg, updated_at := now,
          next_retry_at := some (now + b ^ (raw.attempts + 1)) }
      else r) } := by
  have hnmr : (normalizeRow raw).max_retries = raw.max_retries := by
    simp [normalizeRow, jsOrNat_of_pos _ hmr]
  have hcan : canRetry
      { normalizeRow raw with
        attempts := (normalizeRow raw).attempts + 1,
        error_message := some msg, updated_at := now } := by
    show (normalizeRow raw).attempts + 1 < (normalizeRow raw).max_retries
    rw [hnmr]
    exact hretry
  have hnat : (normalizeRow raw).attempts = raw.attempts := rfl
  simp only [failJob, hfind, hb, getRetryDelay]
  rw [if_pos hcan]
  rfl

/-- The exhaustion path of `failJob`: with no retries left, the snapshot
is inserted into the dead-letter queue and the row deleted from `jobs`. -/
lemma failJob_exhaust_spec {st : Store} {id msg : String} {now : Nat}
    {raw : JobRow}
    (hfind : findRow st id = some raw) (hmr : 0 < raw.max_retries)
    (hex : raw.max_retries ≤ raw.attempts + 1)
    (hdlq : st.dlq.any (fun r => r.id == raw.id) = false) :
    failJob st id msg now = .ok
      { jobs := st.jobs.filter (fun r => !(r.id == raw.id)),
        dlq := st.dlq ++ [⟨raw.id, raw.command, raw.attempts + 1,
          raw.max_retries, raw.created_at, now, some msg⟩],
        config := st.config } := by
  have hnmr : (normalizeRow raw).max_retries = raw.max_retries := by
    simp [normalizeRow, jsOrNat_of_pos _ hmr]
  have hcan : ¬ canRetry
      { normalizeRow raw with
        attempts := (normalizeRow raw).attempts + 1,
        error_message := some msg, updated_at := now } := by
    show ¬ ((normalizeRow raw).attempts + 1 < (normalizeRow raw).max_retries)
    rw [hnmr, show (normalizeRow raw).attempts = raw.attempts from rfl]
    omega
  simp only [failJob, hfind]
  rw [if_neg hcan]
  simp only [moveToDeadLetterQueue, dlqInsert, jobsDelete]
  have hid : (normalizeRow raw).id = raw.id := rfl
  rw [hid, hdlq]
  simp only [Bool.false_eq_true, if_false]
  rw [hnmr, show (normalizeRow raw).command = raw.command from rfl,
    show (normalizeRow raw).attempts = raw.attempts from rfl,
    show (normalizeRow raw).created_at = raw.created_at from rfl]

/-- The JavaScript `s || s` on a string is the identity. -/
lemma jsOrStr_self (s : String) : jsOrStr (some s) s = s := by
  unfold jsOrStr
  split <;> simp_all

/-- `retryDeadJob` on an id absent from the dead-letter queue throws and
touches nothing. -/
lemma retryDeadJob_not_found {st : Store} {id : String} {now : Nat}
    (h : st.dlq.find? (fun r => r.id == id) = none) :
    retryDeadJob st id now =
      .error ("Job " ++ id ++ " not found in dead letter queue") := by
  unfold retryDeadJob
  rw [h]

/-- `retryDeadJob` on a DLQ entry `d` (with no main-table id collision):
the fresh pending row is appended to `jobs` and the DLQ row deleted. -/
lemma retryDeadJob_found_spec {st : Store} {id : String} {now : Nat}
    {d : DLQRow}
    (hfind : st.dlq.find? (fun r => r.id == id) = some d)
    (hdup : st.jobs.any (fun r => r.id == d.id) = false) :
    retryDeadJob st id now = .ok
      ({ jobs := st.jobs ++ [retryRowOf d now],
         dlq := st.dlq.filter (fun r => !(r.id == id)),
         config := st.config }, retryRowOf d now) := by
  have hself : jsOrStr (some d.id) d.id = d.id := jsOrStr_self d.id
  have hdup' : st.jobs.any
      (fun r => r.id == jsOrStr (some d.id) d.id) = false := by
    rw [hself]; exact hdup
  have henq := @enqueue_eq_ok st
    { id := some d.id, command := some d.command, state := some "pending",
      attempts := some 0, max_retries := some d.max_retries,
      created_at := some now, updated_at := some now }
    now d.id d.command rfl hdup'
  have hrow : enqRowOf
      { id := some d.id, command := some d.command, state := some "pending",
        attempts := some 0, max_retries := some d.max_retries,
        created_at := some now, updated_at := some now }
      now d.id d.command = retryRowOf d now := by
    unfold enqRowOf retryRowOf
    rw [hself]
    exact rfl
  simp only [retryDeadJob, retryDeadStep1, hfind, henq, hrow]

/-- Appending a row whose id collides with no existing row keeps the
PRIMARY KEY invariant. -/
lemma uniqueIds_append {l : List JobRow} {row : JobRow}
    (hU : l.Pairwise (fun a b => a.id ≠ b.id))
    (hdup : l.any (fun r => r.id == row.id) = false) :
    (l ++ [row]).Pairwise (fun a b => a.id ≠ b.id) := by
  rw [List.pairwise_append]
  refine ⟨hU, List.pairwise_singleton _ _, ?_⟩
  intro a ha b hb
  rw [List.mem_singleton] at hb
  subst hb
  have hall := List.any_eq_false.mp hdup a ha
  simpa [beq_iff_eq] using hall

/-- An UPDATE that never changes ids keeps the PRIMARY KEY invariant. -/
lemma uniqueIds_map {l : List JobRow} {f : JobRow → JobRow}
    (hf : ∀ r, (f r).id = r.id)
    (hU : l.Pairwise (fun a b => a.id ≠ b.id)) :
    (l.map f).Pairwise (fun a b => a.id ≠ b.id) := by
  rw [List.pairwise_map]
  exact hU.imp (fun h => by rw [hf, hf]; exact h)

/-- A DELETE keeps the PRIMARY KEY invariant. -/
lemma uniqueIds_filter {l : List JobRow} {p : JobRow → Bool}
    (hU : l.Pairwise (fun a b => a.id ≠ b.id)) :
    (l.filter p).Pairwise (fun a b => a.id ≠ b.id) :=
  hU.sublist (List.filter_sublist l)

/-- Enqueue through a documented-or-pending interface preserves the
store invariant. -/
lemma inv_enqueue {st : Store} {d : JobData} {now : Nat} {fresh : String}
    {st' : Store} {row : JobRow} (hI : Inv st)
    (hstate : d.state = none ∨ d.state = some "pending")
    (hatt : d.attempts = none ∨ d.attempts = some 0)
    (h : enqueue st d now fresh = .ok (st', row)) : Inv st' := by
  obtain ⟨hU, hrows⟩ := hI
  obtain ⟨hst, -, -, hrstate, hratt, hrmr, hdup⟩ := enqueue_ok h
  subst hst
  refine ⟨uniqueIds_append hU hdup, ?_⟩
  intro j hj
  rw [List.mem_append] at hj
  rcases hj with hj | hj
  · exact hrows j hj
  · rw [List.mem_singleton] at hj
    subst hj
    refine ⟨?_, ?_, ?_⟩
    · left
      rcases hstate with hs | hs <;> rw [hrstate, hs]
      · rfl
      · exact jsOrStr_self "pending"
    · rw [hrmr]
      exact jsOrNat_pos _ (by norm_num)
    · rw [hratt, hrmr]
      rcases hatt with ha | ha <;> rw [ha] <;>
        simpa [jsOrNat] using jsOrNat_pos d.max_retries (by norm_num)

/-- The guarded claim UPDATE preserves the store invariant. -/
lemma inv_claimUpdate {st : Store} {id : String} {now : Nat} (hI : Inv st) :
    Inv (claimUpdate st id now) := by
  obtain ⟨hU, hrows⟩ := hI
  refine ⟨?_, ?_⟩
  · exact uniqueIds_map (fun r => by
      cases hg : (r.id == id && r.state == "pending") <;>
        simp [claimedRow, hg]) hU
  · intro j hj
    obtain ⟨r, hr, rfl⟩ := List.mem_map.mp hj
    obtain ⟨hs, hmr, hlt⟩ := hrows r hr
    cases hg : (r.id == id && r.state == "pending") with
    | false => simpa [hg] using ⟨hs, hmr, hlt⟩
    | true =>
      simp only [hg, if_true]
      exact ⟨Or.inr (Or.inl rfl), hmr, hlt⟩

/-- `completeJob` preserves the store invariant. -/
lemma inv_complete {st : Store} {id : String} {out : Option String}
    {ms : Option Nat} {now : Nat} (hI : Inv st) :
    Inv (completeJob st id out ms now) := by
  obtain ⟨hU, hrows⟩ := hI
  refine ⟨?_, ?_⟩
  · exact uniqueIds_map (fun r => by
      cases hg : (r.id == id) <;> simp [hg]) hU
  · intro j hj
    obtain ⟨r, hr, rfl⟩ := List.mem_map.mp hj
    obtain ⟨hs, hmr, hlt⟩ := hrows r hr
    cases hg : (r.id == id) with
    | false => simpa [hg] using ⟨hs, hmr, hlt⟩
    | true =>
      simp only [hg, if_true]
      exact ⟨Or.inr (Or.inr rfl), hmr, hlt⟩

/-- `failJob` preserves the store invariant on every successful run. -/
lemma inv_fail {st : Store} {id msg : String} {now : Nat} {st' : Store}
    (hI : Inv st) (h : failJob st id msg now = .ok st') : Inv st' := by
  obtain ⟨hU, hrows⟩ := hI
  simp only [failJob] at h
  split at h
  · rw [Except.ok.injEq] at h
    subst h
    exact ⟨hU, hrows⟩
  · rename_i raw heq
    have hrawmem : raw ∈ st.jobs := List.mem_of_find?_eq_some heq
    obtain ⟨-, hrawmr, -⟩ := hrows raw hrawmem
    have hnmr : (normalizeRow raw).max_retries = raw.max_retries := by
      simp [normalizeRow, jsOrNat_of_pos _ hrawmr]
    split at h
    · rename_i hcan
      split at h
      · exact absurd h (by simp)
      · rename_i b hb
        rw [Except.ok.injEq] at h
        subst h
        have hlt : raw.attempts + 1 < raw.max_retries := by
          have := hcan
          unfold canRetry at this
          rw [show ({ normalizeRow raw with
              attempts := (normalizeRow raw).attempts + 1,
              error_message := some msg,
              updated_at := now } : JobRow).attempts =
            raw.attempts + 1 from rfl] at this
          rw [show ({ normalizeRow raw with
              attempts := (normalizeRow raw).attempts + 1,
              error_message := some msg,
              updated_at := now } : JobRow).max_retries =
            (normalizeRow raw).max_retries from rfl, hnmr] at this
          exact this
        refine ⟨?_, ?_⟩
        · exact uniqueIds_map (fun r => by
            cases hg : (r.id == id) <;> simp [hg]) hU
        · intro j hj
          obtain ⟨r, hr, rfl⟩ := List.mem_map.mp hj
          obtain ⟨hs, hmr, hlt2⟩ := hrows r hr
          cases hg : (r.id == id) with
          | false => simpa [hg] using ⟨hs, hmr, hlt2⟩
          | true =>
            have hreq : r = raw :=
              find_unique_mem hU heq hr (beq_iff_eq.mp hg)
            simp only [hg, if_true]
            refine ⟨Or.inl rfl, hmr, ?_⟩
            show (normalizeRow raw).attempts + 1 < r.max_retries
            rw [show (normalizeRow raw).attempts = raw.attempts from rfl, hreq]
            exact hlt
    · rename_i hncan
      simp only [moveToDeadLetterQueue] at h
      split at h
      · exact absurd h (by simp)
      · rename_i st1 heq2
        rw [Except.ok.injEq] at h
        subst h
        simp only [dlqInsert] at heq2
        split at heq2
        · exact absurd heq2 (by simp)
        · rw [Except.ok.injEq] at heq2
          subst heq2
          have hU' : st.jobs.Pairwise (fun a b => a.id ≠ b.id) := hU
          refine ⟨uniqueIds_filter hU', ?_⟩
          intro j hj
          exact hrows j (List.mem_of_mem_filter hj)

/-- `retryDeadJob` preserves the store invariant on every successful
run. -/
lemma inv_retryDead {st : Store} {id : String} {now : Nat} {st' : Store}
    {row : JobRow} (hI : Inv st)
    (h : retryDeadJob st id now = .ok (st', row)) : Inv st' := by
  simp only [retryDeadJob] at h
  split at h
  · exact absurd h (by simp)
  · rename_i d heq
    split at h
    · exact absurd h (by simp)
    · rename_i p heq1
      rw [Except.ok.injEq, Prod.mk.injEq] at h
      obtain ⟨h1, -⟩ := h
      subst h1
      simp only [retryDeadStep1] at heq1
      have hI1 := inv_enqueue hI (Or.inr rfl) (Or.inr rfl) heq1
      exact hI1

/-- A queue operation applied to an invariant store yields an invariant
store. -/
lemma applyOp_inv {st : Store} {op : Op} (hI : Inv st)
    (hdoc : docOp op = true) : Inv (applyOp st op) := by
  cases op with
  | enq d now fresh =>
    simp only [docOp, Bool.and_eq_true, beq_iff_eq] at hdoc
    simp only [applyOp]
    split
    · rename_i st' row heq
      exact inv_enqueue hI (Or.inl hdoc.1) (Or.inl hdoc.2) heq
    · exact hI
  | claim now =>
    simp only [applyOp]
    cases hsel : selectJob st now with
    | none => rw [dequeue_none hsel]; exact hI
    | some j => rw [dequeue_some hI.1 hsel]; exact inv_claimUpdate hI
  | complete id out ms now => exact inv_complete hI
  | fail id msg now =>
    simp only [applyOp]
    split
    · rename_i st' heq
      exact inv_fail hI heq
    · exact hI
  | retryDead id now =>
    simp only [applyOp]
    split
    · rename_i st' row heq
      exact inv_retryDead hI heq
    · exact hI

/-- The empty initialized store satisfies the invariant. -/
lemma inv_init : Inv Store.init := by
  refine ⟨List.Pairwise.nil, ?_⟩
  intro j hj
  simp [Store.init] at hj

/-- Any documented operation sequence run from a fresh database yields
an invariant store. -/
lemma runOps_inv {ops : List Op} (hdoc : ∀ op ∈ ops, docOp op = true) :
    Inv (runOps ops) := by
  unfold runOps
  have hgen : ∀ (l : List Op) (st : Store), Inv st →
      (∀ op ∈ l, docOp op = true) → Inv (l.foldl applyOp st) := by
    intro l
    induction l with
    | nil => intro st hI _; exact hI
    | cons op rest ih =>
      intro st hI hd
      exact ih (applyOp st op)
        (applyOp_inv hI (hd op (List.mem_cons_self _ _)))
        (fun o ho => hd o (List.mem_cons_of_mem _ ho))
  exact hgen ops Store.init inv_init hdoc

/-- A state no row is in contributes a zero bucket to the stats. -/
lemma countState_eq_zero {st : Store} {s : String}
    (h : ∀ j ∈ st.jobs, j.state ≠ s) : countState st s = 0 := by
  unfold countState
  rw [List.length_eq_zero, List.filter_eq_nil_iff]
  intro a ha
  simpa [beq_iff_eq] using h a ha

/-- With retries left but an unparsable backoff value, `scheduleRetry`
throws before anything is persisted. -/
lemma failJob_retry_nan {st : Store} {id msg : String} {now : Nat}
    {raw : JobRow}
    (hfind : findRow st id = some raw) (hmr : 0 < raw.max_retries)
    (hretry : raw.attempts + 1 < raw.max_retries)
    (hb : parsedBackoff st = none) :
    failJob st id msg now = .error "RangeError: Invalid time value" := by
  have hnmr : (normalizeRow raw).max_retries = raw.max_retries := by
    simp [normalizeRow, jsOrNat_of_pos _ hmr]
  have hcan : canRetry
      { normalizeRow raw with
        attempts := (normalizeRow raw).attempts + 1,
        error_message := some msg, updated_at := now } := by
    show (normalizeRow raw).attempts + 1 < (normalizeRow raw).max_retries
    rw [hnmr, show (normalizeRow raw).attempts = raw.attempts from rfl]
    exact hretry
  simp only [failJob, hfind, hb]
  rw [if_pos hcan]

/-- C1: the claim asserts that a `claim()` whose guarded UPDATE changes
zero rows (the selected job is no longer pending) returns null, so that
among concurrent callers exactly one wins a job.  The code instead
verifies the lock by re-reading the row and checking only
`state === 'processing'` — a check the LOSER of the race also passes,
because the winner has just set that state.  Concretely: worker A
dequeues job `j1`; worker B's SELECT ran before A's update and B's
guarded UPDATE after it.  B's UPDATE changes zero rows, yet B also
receives `j1` as `processing`: both of the two concurrent callers get
the job. -/
theorem C1_claim_race_code_bug :
    claimChanges C1storeA "j1" = 0 ∧
    (dequeue C1store 5).2.map JobRow.id = some "j1" ∧
    (dequeue C1store 5).2.map JobRow.state = some "processing" ∧
    (dequeueInterleaved C1store C1storeA 7).2.map JobRow.id = some "j1" ∧
    (dequeueInterleaved C1store C1storeA 7).2.map JobRow.state =
      some "processing" :=
  ⟨rfl, rfl, rfl, rfl, rfl⟩

/-- C2 (counterexample): the claim says a job migrates to the DLQ
exactly when the post-increment attempts EXCEED max_retries.  But a job
with `max_retries = 1` is migrated on its FIRST failure — post-increment
attempts 1, and 1 > 1 is false. -/
theorem C2_threshold_counterexample :
    failJob C2store "j1" "boom" 10 = .ok C2after ∧
    C2after.jobs = [] ∧
    C2after.dlq.map DLQRow.id = ["j1"] ∧
    C2after.dlq.map DLQRow.attempts = [1] ∧
    ¬ ((1 : Nat) > 1) :=
  ⟨rfl, rfl, rfl, rfl, by omega⟩

/-- C2 (amended): on stores reachable through the documented interface
`attempts ≤ max_retries + 1`; `fail()` migrates a job to the dead-letter
queue (deleting it from `jobs`) exactly when its post-increment attempts
value is AT LEAST `max_retries` (`canRetry` is `attempts < max_retries`
after the increment); a job enqueued with `max_retries = 1` therefore
lands in the DLQ with `attempts = 1` after a single failure. -/
theorem C2_dlq_promotion (ops : List Op)
    (hdoc : ∀ op ∈ ops, docOp op = true)
    (st : Store) (id msg : String) (now : Nat) (raw : JobRow)
    (hfind : findRow st id = some raw)
    (hmr : 0 < raw.max_retries)
    (hdlq : st.dlq.any (fun r => r.id == raw.id) = false) :
    (∀ j ∈ (runOps ops).jobs, j.attempts ≤ j.max_retries + 1) ∧
    ((∃ st', failJob st id msg now = .ok st' ∧
        (∀ k ∈ st'.jobs, k.id ≠ raw.id) ∧
        ∃ dd ∈ st'.dlq, dd.id = raw.id ∧ dd.attempts = raw.attempts + 1)
      ↔ raw.max_retries ≤ raw.attempts + 1) := by
  have hfind' : List.find? (fun x => x.id == id) st.jobs = some raw := hfind
  have hgraw0 := List.find?_some hfind'
  have hgraw : (raw.id == id) = true := hgraw0
  have hrawmem : raw ∈ st.jobs := List.mem_of_find?_eq_some hfind
  constructor
  · intro j hj
    obtain ⟨-, hrows⟩ := runOps_inv hdoc
    obtain ⟨-, -, hlt⟩ := hrows j hj
    omega
  · constructor
    · rintro ⟨st', hok, hnone, -⟩
      by_contra hlt
      push_neg at hlt
      cases hb : parsedBackoff st with
      | none =>
        rw [failJob_retry_nan hfind hmr hlt hb] at hok
        exact absurd hok (by simp)
      | some b =>
        rw [failJob_retry_spec hfind hmr hlt hb, Except.ok.injEq] at hok
        subst hok
        have hmem : (if (raw.id == id) = true then
            ({ raw with
              state := "pending", attempts := raw.attempts + 1,
              error_message := some msg, updated_at := now,
              next_retry_at := some (now + b ^ (raw.attempts + 1)) } : JobRow)
          else raw) ∈ st.jobs.map (fun r =>
            if (r.id == id) = true then
              { r with
                state := "pending", attempts := raw.attempts + 1,
                error_message := some msg, updated_at := now,
                next_retry_at := some (now + b ^ (raw.attempts + 1)) }
            else r) := List.mem_map_of_mem _ hrawmem
        rw [if_pos hgraw] at hmem
        have hcontra := hnone _ hmem
        exact hcontra rfl
    · intro hex
      refine ⟨_, failJob_exhaust_spec hfind hmr hex hdlq, ?_, ?_⟩
      · intro k hk
        have := List.of_mem_filter hk
        simpa [beq_iff_eq] using this
      · exact ⟨⟨raw.id, raw.command, raw.attempts + 1, raw.max_retries,
          raw.created_at, now, some msg⟩,
          List.mem_append_right _ (List.mem_singleton.mpr rfl), rfl, rfl⟩

/-- C2 witness: the theorem applied to the empty operation sequence and
to the concrete one-job store with `max_retries = 1`. -/
theorem C2_dlq_promotion_witness :
    (∀ j ∈ (runOps []).jobs, j.attempts ≤ j.max_retries + 1) ∧
    ((∃ st', failJob C2store "j1" "boom" 10 = .ok st' ∧
        (∀ k ∈ st'.jobs, k.id ≠ (mkRow0 "j1" 0 1 1).id) ∧
        ∃ dd ∈ st'.dlq, dd.id = (mkRow0 "j1" 0 1 1).id ∧
          dd.attempts = (mkRow0 "j1" 0 1 1).attempts + 1)
      ↔ (mkRow0 "j1" 0 1 1).max_retries ≤ (mkRow0 "j1" 0 1 1).attempts + 1) :=
  C2_dlq_promotion [] (by simp) C2store "j1" "boom" 10 (mkRow0 "j1" 0 1 1)
    rfl (by decide) rfl

/-- C3 (counterexample): the claim says `complete` clears
`error_message` and `next_retry_at`.  On a job carrying
`error_message = "old"` and `next_retry_at = 5` from an earlier failure,
`completeJob` marks it completed but leaves both fields untouched — the
UPDATE's SET clause never mentions them. -/
theorem C3_complete_counterexample :
    (completeJob C3store "j1" (some "out") (some 12) 20).jobs.map
      JobRow.error_message = [some "old"] ∧
    (completeJob C3store "j1" (some "out") (some 12) 20).jobs.map
      JobRow.next_retry_at = [some 5] ∧
    (completeJob C3store "j1" (some "out") (some 12) 20).jobs.map
      JobRow.state = ["completed"] :=
  ⟨rfl, rfl, rfl⟩

/-- C3 (amended): for every id present in the table, `complete`
unconditionally sets `state = 'completed'`, records output and
execution_time_ms (when the arguments are non-null), sets `completed_at`
and `updated_at` — and leaves `error_message` and `next_retry_at`
unchanged rather than clearing them.  Rows with other ids are
untouched. -/
theorem C3_complete_behavior (st : Store) (id : String)
    (out : Option String) (ms : Option Nat) (now : Nat) (raw : JobRow)
    (hU : uniqueIds st) (hfind : findRow st id = some raw) :
    findRow (completeJob st id out ms now) id = some
      { raw with
        output := match out with | some o => some o | none => raw.output,
        execution_time_ms :=
          match ms with | some m => some m | none => raw.execution_time_ms,
        state := "completed", completed_at := some now, updated_at := now } ∧
    (∀ r', findRow (completeJob st id out ms now) id = some r' →
      r'.error_message = raw.error_message ∧
      r'.next_retry_at = raw.next_retry_at ∧
      r'.state = "completed" ∧ r'.completed_at = some now) ∧
    (∀ r ∈ st.jobs, r.id ≠ id → r ∈ (completeJob st id out ms now).jobs) := by
  have hspec := @completeJob_spec st id out ms now raw hU hfind
  refine ⟨hspec, ?_, fun r hr hne => completeJob_other_rows hr hne⟩
  intro r' h'
  rw [hspec, Option.some.injEq] at h'
  subst h'
  exact ⟨rfl, rfl, rfl, rfl⟩

/-- C3 witness: the theorem applied to the concrete store whose job
carries an old failure message. -/
theorem C3_complete_behavior_witness :
    findRow (completeJob C3store "j1" (some "out") (some 12) 20) "j1" = some
      { C3job with
        output := match some "out" with | some o => some o | none => C3job.output,
        execution_time_ms := match some 12 with
          | some m => some m | none => C3job.execution_time_ms,
        state := "completed", completed_at := some 20, updated_at := 20 } ∧
    (∀ r', findRow (completeJob C3store "j1" (some "out") (some 12) 20) "j1" =
        some r' →
      r'.error_message = C3job.error_message ∧
      r'.next_retry_at = C3job.next_retry_at ∧
      r'.state = "completed" ∧ r'.completed_at = some 20) ∧
    (∀ r ∈ C3store.jobs, r.id ≠ "j1" →
      r ∈ (completeJob C3store "j1" (some "out") (some 12) 20).jobs) :=
  C3_complete_behavior C3store "j1" (some "out") (some 12) 20 C3job
    (List.pairwise_singleton _ _) rfl

/-- C4: the exhaustion path of `failJob` is NOT atomic.  The code runs
the `dead_letter_queue` INSERT and the `jobs` DELETE as two separate
auto-committed statements with no enclosing transaction
(`moveToDeadLetterQueue` is exactly `dlqInsert` followed by
`jobsDelete`).  Between them the store `C4mid` is observable — and is
the store left behind if the process dies there — with the exhausted job
present in BOTH tables, which the claim says never happens. -/
theorem C4_exhaustion_not_atomic :
    failJob C4store "j1" "boom" 10 = moveToDeadLetterQueue C4store C4job 10 ∧
    dlqInsert C4store C4job 10 = .ok C4mid ∧
    moveToDeadLetterQueue C4store C4job 10 = .ok (jobsDelete C4mid "j1") ∧
    C4mid.jobs.map JobRow.id = ["j1"] ∧
    C4mid.dlq.map DLQRow.id = ["j1"] :=
  ⟨rfl, rfl, rfl, rfl, rfl⟩

/-- C5: the sequential claim: `dequeue` returns null exactly when no
pending job is eligible (`next_retry_at` and `run_at` both null or past);
otherwise it returns the claimed version of an eligible pending job of
maximum priority, earliest `created_at` among that priority — never a
job whose `next_retry_at` or `run_at` lies in the future. -/
theorem C5_claim_selection_rule (st : Store) (now : Nat)
    (hU : uniqueIds st) :
    ((dequeue st now).2 = none ↔ ∀ j ∈ st.jobs, eligible now j = false) ∧
    (∀ r, (dequeue st now).2 = some r →
      ∃ j ∈ st.jobs, eligible now j = true ∧ j.state = "pending" ∧
        r = claimedRow j now ∧ r.state = "processing" ∧
        (∀ k ∈ st.jobs, eligible now k = true → k.priority ≤ j.priority) ∧
        (∀ k ∈ st.jobs, eligible now k = true → k.priority = j.priority →
          j.created_at ≤ k.created_at) ∧
        (∀ t, j.next_retry_at = some t → t ≤ now) ∧
        (∀ t, j.run_at = some t → t ≤ now)) := by
  constructor
  · constructor
    · intro h
      cases hsel : selectJob st now with
      | none => exact (selectFrom_eq_none now st.jobs).mp hsel
      | some j =>
        rw [dequeue_some hU hsel] at h
        exact absurd h (by simp)
    · intro h
      rw [dequeue_none ((selectFrom_eq_none now st.jobs).mpr h)]
  · intro r hr
    cases hsel : selectJob st now with
    | none =>
      rw [dequeue_none hsel] at hr
      exact absurd hr (by simp)
    | some j =>
      rw [dequeue_some hU hsel] at hr
      simp only [Option.some.injEq] at hr
      subst hr
      obtain ⟨hmem, helig, hbest⟩ := selectFrom_eq_some now st.jobs j hsel
      obtain ⟨hpend, hnra, hra⟩ := (eligible_iff now j).mp helig
      refine ⟨j, hmem, helig, hpend, rfl, rfl, ?_, ?_, hnra, hra⟩
      · intro k hk hke
        have hb := hbest k hk hke
        simp only [better, Bool.or_eq_false_iff, Bool.and_eq_false_iff,
          decide_eq_false_iff_not, decide_eq_true_eq] at hb
        rcases hb with ⟨h1, -⟩
        omega
      · intro k hk hke hpk
        have hb := hbest k hk hke
        simp only [better, Bool.or_eq_false_iff, Bool.and_eq_false_iff,
          decide_eq_false_iff_not, decide_eq_true_eq] at hb
        rcases hb with ⟨-, h2⟩
        rcases h2 with h2 | h2
        · exact absurd hpk h2
        · omega

/-- C5 witness: the theorem applied to a concrete two-job store. -/
theorem C5_claim_selection_rule_witness :
    (((dequeue C5wstore 10).2 = none ↔
        ∀ j ∈ C5wstore.jobs, eligible 10 j = false) ∧
      (∀ r, (dequeue C5wstore 10).2 = some r →
        ∃ j ∈ C5wstore.jobs, eligible 10 j = true ∧ j.state = "pending" ∧
          r = claimedRow j 10 ∧ r.state = "processing" ∧
          (∀ k ∈ C5wstore.jobs, eligible 10 k = true →
            k.priority ≤ j.priority) ∧
          (∀ k ∈ C5wstore.jobs, eligible 10 k = true →
            k.priority = j.priority → j.created_at ≤ k.created_at) ∧
          (∀ t, j.next_retry_at = some t → t ≤ 10) ∧
          (∀ t, j.run_at = some t → t ≤ 10))) :=
  C5_claim_selection_rule C5wstore 10 (by
    refine List.Pairwise.cons ?_ (List.pairwise_singleton _ _)
    intro b hb
    rw [List.mem_singleton] at hb
    subst hb
    decide)

/-- C6: the retry-delay function is `base ^ attempts`; the base read
from config key `backoff_base` defaults to 2 when the key is absent (so
a first retry is `2^1 = 2` seconds out); and the retry path of `fail`
persists `state = 'pending'` and
`next_retry_at = now + base ^ attempts` with `attempts` the
post-increment value. -/
theorem C6_exponential_backoff (st : Store) (id msg : String) (now : Nat)
    (raw : JobRow) (b : Nat) (hU : uniqueIds st)
    (hfind : findRow st id = some raw) (hmr : 0 < raw.max_retries)
    (hretry : raw.attempts + 1 < raw.max_retries)
    (hb : parsedBackoff st = some b) :
    (∀ a base : Nat, getRetryDelay a base = base ^ a) ∧
    (getConfig st "backoff_base" = none → b = 2) ∧
    (getConfig st "backoff_base" = none → raw.attempts = 0 →
      b ^ (raw.attempts + 1) = 2) ∧
    (∃ st', failJob st id msg now = .ok st' ∧
      findRow st' id = some
        { raw with
          state := "pending", attempts := raw.attempts + 1,
          error_message := some msg, updated_at := now,
          next_retry_at := some (now + b ^ (raw.attempts + 1)) }) := by
  have hfind' : List.find? (fun x => x.id == id) st.jobs = some raw := hfind
  have hgraw0 := List.find?_some hfind'
  have hgraw : (raw.id == id) = true := hgraw0
  have hdef : getConfig st "backoff_base" = none → b = 2 := by
    intro hc
    unfold parsedBackoff at hb
    rw [hc] at hb
    have h2 : parseIntNat (jsOrStr none "2") = some 2 := rfl
    rw [h2] at hb
    exact (Option.some.inj hb).symm
  refine ⟨fun a base => rfl, hdef, ?_, ?_⟩
  · intro hc h0
    rw [hdef hc, h0]
    norm_num
  · refine ⟨_, failJob_retry_spec hfind hmr hretry hb, ?_⟩
    exact find_map_update (fun r => r.id == id)
      (fun r =>
        { r with
          state := "pending", attempts := raw.attempts + 1,
          error_message := some msg, updated_at := now,
          next_retry_at := some (now + b ^ (raw.attempts + 1)) })
      hU hfind (fun r hr => beq_iff_eq.mp hr) rfl hgraw

/-- C6 witness: a fresh job (attempts 0) failing once on a store with no
explicit `backoff_base` row: the base is the default 2 and the first
retry is scheduled `2^1 = 2` seconds after `now = 10`. -/
theorem C6_exponential_backoff_witness :
    (∀ a base : Nat, getRetryDelay a base = base ^ a) ∧
    (getConfig C6wstore "backoff_base" = none → 2 = 2) ∧
    (getConfig C6wstore "backoff_base" = none →
      (mkRow0 "j1" 0 1 3).attempts = 0 →
      2 ^ ((mkRow0 "j1" 0 1 3).attempts + 1) = 2) ∧
    (∃ st', failJob C6wstore "j1" "err" 10 = .ok st' ∧
      findRow st' "j1" = some
        { mkRow0 "j1" 0 1 3 with
          state := "pending", attempts := (mkRow0 "j1" 0 1 3).attempts + 1,
          error_message := some "err", updated_at := 10,
          next_retry_at :=
            some (10 + 2 ^ ((mkRow0 "j1" 0 1 3).attempts + 1)) }) :=
  C6_exponential_backoff C6wstore "j1" "err" 10 (mkRow0 "j1" 0 1 3) 2
    (List.pairwise_singleton _ _) rfl (by decide) (by decide) rfl

/-- C7 (counterexample): the claim says an empty-string command fails
validation and inserts no row.  `enqueue` performs no validation and the
empty string satisfies the NOT NULL constraint, so the job is persisted
as `pending` and returned. -/
theorem C7_empty_command_counterexample :
    enqueue Store.init { command := some "" } 3 "fresh1" =
      .ok ({ jobs := [C7row], dlq := [], config := Store.init.config },
        C7row) ∧
    C7row.state = "pending" ∧ C7row.command = "" :=
  ⟨rfl, rfl, rfl⟩

/-- C7 (amended): an `enqueue` whose data carries NO command fails (the
store's NOT NULL constraint) and inserts nothing; any PRESENT command
string — including the empty string — is persisted as a `pending` job
and returned, with a fresh id assigned when none is supplied. -/
theorem C7_enqueue_validation (st : Store) (d : JobData) (now : Nat)
    (fresh : String) (hstate : d.state = none)
    (hdup : st.jobs.any (fun r => r.id == jsOrStr d.id fresh) = false) :
    (d.command = none → enqueue st d now fresh =
      .error "SQLITE_CONSTRAINT: NOT NULL constraint failed: jobs.command") ∧
    (∀ c, d.command = some c →
      enqueue st d now fresh =
        .ok ({ st with jobs := st.jobs ++ [enqRowOf d now fresh c] },
          enqRowOf d now fresh c) ∧
      (enqRowOf d now fresh c).state = "pending" ∧
      (enqRowOf d now fresh c).command = c ∧
      (d.id = none → (enqRowOf d now fresh c).id = fresh)) := by
  refine ⟨fun hc => enqueue_no_command hc, ?_⟩
  intro c hc
  refine ⟨enqueue_eq_ok hc hdup, ?_, rfl, ?_⟩
  · simp [enqRowOf, hstate, jsOrStr]
  · intro hid
    simp [enqRowOf, hid, jsOrStr]

/-- C7 witness: the theorem applied to the empty-command input on a
fresh store. -/
theorem C7_enqueue_validation_witness :
    enqueue Store.init { command := some "" } 3 "fresh1" =
      .ok ({ Store.init with jobs := Store.init.jobs ++
          [enqRowOf { command := some "" } 3 "fresh1" ""] },
        enqRowOf { command := some "" } 3 "fresh1" "") ∧
    (enqRowOf { command := some "" } 3 "fresh1" "").state = "pending" ∧
    (enqRowOf { command := some "" } 3 "fresh1" "").command = "" ∧
    (({ command := some "" } : JobData).id = none →
      (enqRowOf { command := some "" } 3 "fresh1" "").id = "fresh1") :=
  (C7_enqueue_validation Store.init { command := some "" } 3 "fresh1"
    rfl rfl).2 "" rfl

/-- C8 (counterexample): the claim says the fresh job creation and the
DLQ deletion are atomic — both effects or neither.  The code performs
them as two separate statements: after the first (`retryDeadStep1`, the
INSERT into `jobs`) and before the DELETE, the store `C8mid` is
observable — and is what remains if execution dies there — with `j9`
present in BOTH tables. -/
theorem C8_retry_dead_counterexample :
    retryDeadStep1 C8store C8dlq 30 = .ok (C8mid, C8row) ∧
    C8mid.jobs.map JobRow.id = ["j9"] ∧
    C8mid.dlq.map DLQRow.id = ["j9"] ∧
    retryDeadJob C8store "j9" 30 = .ok ({ C8mid with dlq := [] }, C8row) :=
  ⟨rfl, rfl, rfl, rfl⟩

/-- C8 (amended): `retry_dead(id)` with an unknown id throws and changes
no state; with a DLQ entry `d` (and no main-table id collision) it
creates a fresh pending job with `attempts = 0` preserving id and
command, and removes the DLQ entry — as two sequential statements
(insert, then delete), not atomically. -/
theorem C8_retry_dead_behavior (st : Store) (id : String) (now : Nat) :
    (st.dlq.find? (fun r => r.id == id) = none →
      retryDeadJob st id now =
        .error ("Job " ++ id ++ " not found in dead letter queue") ∧
      applyOp st (.retryDead id now) = st) ∧
    (∀ d, st.dlq.find? (fun r => r.id == id) = some d →
      st.jobs.any (fun r => r.id == d.id) = false →
      retryDeadJob st id now = .ok
        ({ jobs := st.jobs ++ [retryRowOf d now],
           dlq := st.dlq.filter (fun r => !(r.id == id)),
           config := st.config }, retryRowOf d now) ∧
      (retryRowOf d now).state = "pending" ∧
      (retryRowOf d now).attempts = 0 ∧
      (retryRowOf d now).id = d.id ∧
      (retryRowOf d now).command = d.command) := by
  constructor
  · intro hn
    refine ⟨retryDeadJob_not_found hn, ?_⟩
    simp only [applyOp, retryDeadJob_not_found hn]
  · intro d hfind hdup
    exact ⟨retryDeadJob_found_spec hfind hdup, rfl, rfl, rfl, rfl⟩

/-- C8 witness: the theorem applied to the concrete DLQ entry `j9`. -/
theorem C8_retry_dead_behavior_witness :
    retryDeadJob C8store "j9" 30 = .ok
      ({ jobs := C8store.jobs ++ [retryRowOf C8dlq 30],
         dlq := C8store.dlq.filter (fun r => !(r.id == "j9")),
         config := C8store.config }, retryRowOf C8dlq 30) ∧
    (retryRowOf C8dlq 30).state = "pending" ∧
    (retryRowOf C8dlq 30).attempts = 0 ∧
    (retryRowOf C8dlq 30).id = C8dlq.id ∧
    (retryRowOf C8dlq 30).command = C8dlq.command :=
  (C8_retry_dead_behavior C8store "j9" 30).2 C8dlq rfl rfl

/-- C9: `fail` on an id with no row in the `jobs` table returns normally
and leaves the whole store — jobs, dead-letter queue and config —
exactly as it was. -/
theorem C9_fail_unknown_id_noop (st : Store) (id msg : String) (now : Nat)
    (h : findRow st id = none) : failJob st id msg now = .ok st :=
  failJob_no_row h

/-- C9 witness: failing a non-existent id on a fresh store. -/
theorem C9_fail_unknown_id_noop_witness :
    failJob Store.init "nope" "err" 5 = .ok Store.init :=
  C9_fail_unknown_id_noop Store.init "nope" "err" 5 rfl

/-- C10: after any sequence of documented queue operations from a fresh
database, no `jobs` row rests in state `failed` or `dead` — `fail`
persists `pending` or deletes the row — so `stats` always reports
`failed = 0` and `dead = 0`. -/
theorem C10_no_failed_or_dead_rows (ops : List Op)
    (hdoc : ∀ op ∈ ops, docOp op = true) :
    (∀ j ∈ (runOps ops).jobs,
      j.state = "pending" ∨ j.state = "processing" ∨
        j.state = "completed") ∧
    (getJobStats (runOps ops)).failed = 0 ∧
    (getJobStats (runOps ops)).dead = 0 := by
  obtain ⟨-, hrows⟩ := runOps_inv hdoc
  have hstate : ∀ j ∈ (runOps ops).jobs, stateOk j :=
    fun j hj => (hrows j hj).1
  refine ⟨hstate, ?_, ?_⟩
  · show countState (runOps ops) "failed" = 0
    apply countState_eq_zero
    intro j hj
    rcases hstate j hj with h | h | h <;> rw [h] <;> decide
  · show countState (runOps ops) "dead" = 0
    apply countState_eq_zero
    intro j hj
    rcases hstate j hj with h | h | h <;> rw [h] <;> decide

/-- C10 witness: the theorem applied to a concrete enqueue-claim-fail
sequence. -/
theorem C10_no_failed_or_dead_rows_witness :
    (∀ j ∈ (runOps C10ops).jobs,
      j.state = "pending" ∨ j.state = "processing" ∨
        j.state = "completed") ∧
    (getJobStats (runOps C10ops)).failed = 0 ∧
    (getJobStats (runOps C10ops)).dead = 0 :=
  C10_no_failed_or_dead_rows C10ops (by decide)

end QueueCtl
